import Mathlib

/-!
Verification of the zillow-scrape-address-url-zpid extraction engine.

Shallow embedding of the repository's Python code:
  * `classify_input`, `_build_url_for_record`, `fetch_property` (status
    handling), `_extract_relevant_json`, `walk` (payload locator), the
    field-selection chains of `_parse_from_json_blob`, `_parse_from_html`
    and its regex helpers  — from src/URL/ZPID/src/extractors/zillow_parser.py
  * `clean_text`, `parse_int`, `parse_float`, `normalize_property_record`
    — from src/URL/ZPID/src/extractors/helpers_cleaning.py
  * `process_records` — from src/URL/ZPID/src/runner.py

Python strings are modelled as `List Char`; Python `None`-able results as
`Option`; raised exceptions as `Except`/`Option`; JSON values as the
inductive `Json`. External libraries (httpx responses, the stdlib `json`
decoder, BeautifulSoup DOM lookups, `re` searches) are modelled explicitly
where the code's behaviour depends on them.
-/

/-- Characters treated as whitespace by Python's `str.strip` (ASCII range). -/
def isPySpace (c : Char) : Bool :=
  c = ' ' || c = '\t' || c = '\n' || c = '\r' || c = Char.ofNat 11 || c = Char.ofNat 12

/-- Python `str.strip()` with no argument: drop leading and trailing whitespace. -/
def pyStrip (s : List Char) : List Char :=
  ((s.dropWhile isPySpace).reverse.dropWhile isPySpace).reverse

/-- Python `str.lower()` (ASCII case folding suffices for the inputs involved). -/
def lowerL (s : List Char) : List Char :=
  s.map Char.toLower

/-- Python substring test `needle in hay`. -/
def containsSub (hay needle : List Char) : Bool :=
  if needle.isPrefixOf hay then true
  else
    match hay with
    | [] => false
    | _ :: t => containsSub t needle

/-- Numeric value of a list of decimal digit characters (most significant first). -/
def natOfDigits (ds : List Char) : ℕ :=
  ds.foldl (fun acc c => acc * 10 + (c.toNat - 48)) 0

/-- InputRecord from zillow_parser.py: raw line, kind tag ("address", "zpid",
"url") and cleaned value. -/
structure InputRecordL where
  raw : List Char
  kind : String
  value : List Char
deriving DecidableEq

/-- Does the cleaned line start (case-insensitively) with an http or https scheme? -/
def isHttpStart (cleaned : List Char) : Bool :=
  List.isPrefixOf "http://".data (lowerL cleaned) ||
    List.isPrefixOf "https://".data (lowerL cleaned)

/-- classify_input (zillow_parser.py:54-71).  `none` models the raised
`ValueError` on an empty trimmed line. -/
def classify_input (raw : List Char) : Option InputRecordL :=
  let cleaned := pyStrip raw
  if cleaned = [] then none
  else if isHttpStart cleaned then some ⟨raw, "url", cleaned⟩
  else if cleaned.all Char.isDigit then some ⟨raw, "zpid", cleaned⟩
  else some ⟨raw, "address", cleaned⟩

/-- The space-to-dash replacement `value.replace(' ', '-')` used for address URLs. -/
def dashSpaces (s : List Char) : List Char :=
  s.map (fun c => if c = ' ' then '-' else c)

/-- build_url_for_record (zillow_parser.py:105-119).  `base` is the client's
`base_url` (already right-stripped of slashes in `__init__`). -/
def build_url_for_record (base : List Char) (record : InputRecordL) : List Char :=
  if record.kind = "url" then record.value
  else if record.kind = "zpid" then
    base ++ "/homedetails/".data ++ record.value ++ "_zpid/".data
  else
    base ++ "/homes/".data ++ dashSpaces record.value ++ "_rb/".data

/-- C5: classification fails exactly on an input whose trim is empty; otherwise
the record keeps the raw line, its value is the trimmed line, and the kind is
decided by rule order: http(s) scheme prefix (case-insensitive) gives "url",
then an all-digit value gives "zpid" (the spec's `id` kind), and anything else
gives "address".  Classification is a pure Lean function, hence deterministic
and side-effect free. -/
theorem classify_input_rule_order (raw : List Char) :
    (classify_input raw = none ↔ pyStrip raw = []) ∧
    (∀ rec, classify_input raw = some rec → rec.raw = raw ∧ rec.value = pyStrip raw) ∧
    (pyStrip raw ≠ [] → isHttpStart (pyStrip raw) = true →
      classify_input raw = some ⟨raw, "url", pyStrip raw⟩) ∧
    (pyStrip raw ≠ [] → isHttpStart (pyStrip raw) = false →
      (pyStrip raw).all Char.isDigit = true →
      classify_input raw = some ⟨raw, "zpid", pyStrip raw⟩) ∧
    (pyStrip raw ≠ [] → isHttpStart (pyStrip raw) = false →
      (pyStrip raw).all Char.isDigit = false →
      classify_input raw = some ⟨raw, "address", pyStrip raw⟩) := by
  unfold classify_input
  refine ⟨?_, ?_, ?_, ?_, ?_⟩
  · constructor
    · intro h
      by_cases hempty : pyStrip raw = []
      · exact hempty
      · simp only [hempty, if_false] at h
        split at h <;> first | (split at h <;> simp_all) | simp_all
    · intro h; simp [h]
  · intro rec h
    by_cases hempty : pyStrip raw = []
    · simp [hempty] at h
    · simp only [hempty, if_false] at h
      split at h <;> first
        | (cases h; exact ⟨rfl, rfl⟩)
        | (split at h <;> cases h <;> exact ⟨rfl, rfl⟩)
  · intro hne hurl; simp [hne, hurl]
  · intro hne hurl hdig; simp [hne, hurl, hdig]
  · intro hne hurl hdig; simp [hne, hurl, hdig]

/-- C5 witness: a plain street address line (leading/trailing blanks trimmed)
classifies as kind "address" with the trimmed value. -/
theorem classify_input_rule_order_witness :
    classify_input " 12 Main St ".data = some ⟨" 12 Main St ".data, "address", "12 Main St".data⟩ := by
  have h := (classify_input_rule_order " 12 Main St ".data).2.2.2.2
    (by decide) (by decide) (by decide)
  simpa using h

/-- C8: URL resolution is pure (identical inputs give identical output); a
"url"-kind record passes its value through unchanged; a "zpid"-kind record
yields the canonical home-details path under the base URL with the identifier
embedded between the path segment and the `_zpid/` suffix; an "address"-kind
record yields the homes search path in which every space of the address has
been replaced by a dash, so the inserted slug contains no space character. -/
theorem build_url_kind_mapping (base : List Char) (record : InputRecordL) :
    (build_url_for_record base record = build_url_for_record base record) ∧
    (record.kind = "url" → build_url_for_record base record = record.value) ∧
    (record.kind = "zpid" →
      build_url_for_record base record =
        base ++ "/homedetails/".data ++ record.value ++ "_zpid/".data) ∧
    (record.kind = "address" →
      build_url_for_record base record =
        base ++ "/homes/".data ++ dashSpaces record.value ++ "_rb/".data ∧
      ∀ c ∈ dashSpaces record.value, c ≠ ' ') := by
  refine ⟨rfl, ?_, ?_, ?_⟩
  · intro h; simp [build_url_for_record, h]
  · intro h; simp [build_url_for_record, h]
  · intro h
    refine ⟨by simp [build_url_for_record, h], ?_⟩
    intro c hc
    simp only [dashSpaces, List.mem_map] at hc
    obtain ⟨a, _, ha⟩ := hc
    by_cases hsp : a = ' ' <;> simp [hsp] at ha <;> simp [← ha, hsp]

/-- C8 witness: resolving an address record with an internal space produces the
search path with the space dashed. -/
theorem build_url_kind_mapping_witness :
    build_url_for_record "https://www.zillow.com".data ⟨"12 Main".data, "address", "12 Main".data⟩ =
      "https://www.zillow.com/homes/12-Main_rb/".data := by
  have h := (build_url_kind_mapping "https://www.zillow.com".data
    ⟨"12 Main".data, "address", "12 Main".data⟩).2.2.2 rfl
  exact h.1.trans (by decide)

/-- Characters of the regex class `\s` (ASCII range), as used by `re.sub` in
clean_text. -/
def isReSpace (c : Char) : Bool :=
  isPySpace c

/-- The `re.sub(r"\s+", " ", text)` step of clean_text: every maximal run of
whitespace becomes a single space. -/
def squeezeWs : List Char → List Char
  | [] => []
  | c :: rest =>
    if isReSpace c then ' ' :: squeezeWs (rest.dropWhile isReSpace)
    else c :: squeezeWs rest
termination_by s => s.length
decreasing_by
  · exact Nat.lt_succ_of_le ((List.dropWhile_sublist isReSpace).length_le)
  · exact Nat.lt_succ_of_le (Nat.le_refl _)

/-- clean_text (helpers_cleaning.py:4-12): trim, then collapse internal
whitespace runs to single spaces. -/
def clean_text (s : List Char) : List Char :=
  squeezeWs (pyStrip s)

/-- Scalar values as they occur in the raw maps handed to the normalizer:
Python None, int, float (modelled as an exact rational) or str. -/
inductive Val where
  | vnone
  | vint (n : ℤ)
  | vfloat (q : ℚ)
  | vstr (s : List Char)
deriving DecidableEq

/-- Python built-in `round` on a (finite) float value: round half to even. -/
def pyRound (q : ℚ) : ℤ :=
  let f := ⌊q⌋
  let r := q - (f : ℚ)
  if r < 1/2 then f
  else if 1/2 < r then f + 1
  else if f % 2 = 0 then f else f + 1

/-- Python `int(s)` on a string containing only decimal digits and minus
signs: succeeds exactly on an optional single leading minus followed by one or
more digits. -/
def intOfDigitMinus (s : List Char) : Option ℤ :=
  match s with
  | '-' :: rest =>
    if rest ≠ [] ∧ rest.all Char.isDigit then some (-(natOfDigits rest : ℤ)) else none
  | _ =>
    if s ≠ [] ∧ s.all Char.isDigit then some ((natOfDigits s : ℤ)) else none

/-- parse_int (helpers_cleaning.py:28-45).  Best-effort integer coercion:
ints pass through, floats go through Python's `round` (half to even, modelled
by `pyRound`), strings are reduced to their digit/minus characters and parsed;
every failure yields `none`. -/
def parse_int (value : Val) : Option ℤ :=
  match value with
  | .vnone => none
  | .vint n => some n
  | .vfloat q => some (pyRound q)
  | .vstr s =>
    let digits := s.filter (fun c => c.isDigit || c = '-')
    if digits = [] then none else intOfDigitMinus digits

/-- Helper for Python `float(s)` on sign-free input made of digits and dots:
digits, optionally a single dot followed by digit-only fraction, with at least
one digit overall. -/
def floatCore (s : List Char) : Option ℚ :=
  let intPart := s.takeWhile Char.isDigit
  let rest := s.drop intPart.length
  match rest with
  | [] => if intPart = [] then none else some ((natOfDigits intPart : ℚ))
  | '.' :: rest2 =>
    if rest2.all Char.isDigit ∧ (intPart ≠ [] ∨ rest2 ≠ []) then
      some ((natOfDigits intPart : ℚ) + (natOfDigits rest2 : ℚ) / 10 ^ rest2.length)
    else none
  | _ => none

/-- Python `float(s)` on a string containing only digits, dots and minus
signs. -/
def floatOfCleaned (s : List Char) : Option ℚ :=
  match s with
  | '-' :: rest => (floatCore rest).map Neg.neg
  | _ => floatCore s

/-- parse_float (helpers_cleaning.py:47-63). -/
def parse_float (value : Val) : Option ℚ :=
  match value with
  | .vnone => none
  | .vint n => some ((n : ℚ))
  | .vfloat q => some q
  | .vstr s =>
    let cleaned := s.filter (fun c => c.isDigit || c = '.' || c = '-')
    if cleaned = [] then none else floatOfCleaned cleaned

/-- Python truthiness of the scalar values. -/
def vTruthy : Val → Bool
  | .vnone => false
  | .vint n => if n = 0 then false else true
  | .vfloat q => if q = 0 then false else true
  | .vstr s => if s = [] then false else true

/-- Python `str` on the scalar values that reach the text fields; the textual
form of a float is abstracted as "num/den" (no claim depends on float
formatting). -/
def pyStrVal : Val → List Char
  | .vnone => "None".data
  | .vint n => (toString n).data
  | .vfloat q => (toString q.num).data ++ "/".data ++ (toString q.den).data
  | .vstr s => s

/-- Values of the normalized output map: null, int, float or text. -/
inductive NVal where
  | nnull
  | nint (n : ℤ)
  | nfloat (q : ℚ)
  | nstr (s : List Char)
deriving DecidableEq

/-- The fixed output fields of normalize_property_record
(helpers_cleaning.py:91-105), in source order. -/
def normFields : List String :=
  ["address", "zpid", "url", "zestimate", "rentZestimate", "bedrooms",
   "bathrooms", "livingArea", "lotSize", "homeType", "yearBuilt", "price", "status"]

/-- Lift an optional integer into the normalized-value type. -/
def optIntN : Option ℤ → NVal
  | some n => .nint n
  | none => .nnull

/-- Lift an optional rational into the normalized-value type. -/
def optFloatN : Option ℚ → NVal
  | some q => .nfloat q
  | none => .nnull

/-- The text-field pattern `clean_text(str(value or ""))` followed by
`text or None`. -/
def textCoerce (value : Val) : NVal :=
  let t := clean_text (if vTruthy value then pyStrVal value else [])
  if t = [] then .nnull else .nstr t

/-- The per-field coercion of normalize_property_record
(helpers_cleaning.py:108-127), in the code's `if`/`elif` order; the final
branch is the passthrough `else` (unreachable for the fixed field list). -/
def coerceField (field : String) (value : Val) : NVal :=
  if field = "bedrooms" ∨ field = "bathrooms" then optFloatN (parse_float value)
  else if field = "livingArea" ∨ field = "lotSize" ∨ field = "yearBuilt" ∨ field = "price" then
    optIntN (parse_int value)
  else if field = "zestimate" ∨ field = "rentZestimate" then optFloatN (parse_float value)
  else if field = "homeType" ∨ field = "status" then textCoerce value
  else if field = "address" ∨ field = "url" then textCoerce value
  else if field = "zpid" then textCoerce value
  else
    match value with
    | .vnone => .nnull
    | .vint n => .nint n
    | .vfloat q => .nfloat q
    | .vstr s => .nstr s

/-- Python `raw.get(field)`: the stored value, or None when absent. -/
def rawGet (raw : List (String × Val)) (field : String) : Val :=
  match raw.lookup field with
  | some v => v
  | none => .vnone

/-- normalize_property_record (helpers_cleaning.py:80-135): coerce every fixed
field, substitute the fallback URL when the coerced url is missing, and append
the provenance field. -/
def normalize_property_record (raw : List (String × Val)) (source : List Char)
    (fallback_url : List Char) : List (String × NVal) :=
  let base := normFields.map (fun f => (f, coerceField f (rawGet raw f)))
  let base2 :=
    if base.lookup "url" = some NVal.nnull ∧ fallback_url ≠ [] then
      base.map (fun p => if p.1 = "url" then (p.1, NVal.nstr (clean_text fallback_url)) else p)
    else base
  base2 ++ [("sourceInput", NVal.nstr (clean_text source))]

/-- Shared evaluation lemma: the normalized map always carries the livingArea
field, with the value produced by the integer coercion of the raw value. -/
theorem lookup_livingArea_normalize (raw : List (String × Val)) (source fallback_url : List Char) :
    (normalize_property_record raw source fallback_url).lookup "livingArea" =
      some (coerceField "livingArea" (rawGet raw "livingArea")) := by
  simp only [normalize_property_record, normFields]
  split <;> rfl

/-- Shared evaluation lemma: the keys of the normalized map are exactly the
fixed field list followed by the provenance field, whatever the input. -/
theorem keys_normalize (raw : List (String × Val)) (source fallback_url : List Char) :
    (normalize_property_record raw source fallback_url).map Prod.fst =
      normFields ++ ["sourceInput"] := by
  simp only [normalize_property_record, normFields]
  split <;> rfl

/-- C6: an integer-family field (livingArea) given the text "1,234" normalizes
to the integer 1234, given the text "abc" normalizes to null, and given None
normalizes to null; and no coercion outcome removes a field — the normalize
call is total and every output map carries the full fixed key set (so a single
field's failure never fails the call). -/
theorem normalize_int_family_coercion (raw : List (String × Val))
    (source fallback_url : List Char) :
    (rawGet raw "livingArea" = Val.vstr "1,234".data →
      (normalize_property_record raw source fallback_url).lookup "livingArea" =
        some (NVal.nint 1234)) ∧
    (rawGet raw "livingArea" = Val.vstr "abc".data →
      (normalize_property_record raw source fallback_url).lookup "livingArea" =
        some NVal.nnull) ∧
    (rawGet raw "livingArea" = Val.vnone →
      (normalize_property_record raw source fallback_url).lookup "livingArea" =
        some NVal.nnull) ∧
    (normalize_property_record raw source fallback_url).map Prod.fst =
      normFields ++ ["sourceInput"] := by
  refine ⟨?_, ?_, ?_, keys_normalize raw source fallback_url⟩ <;>
    intro h <;> rw [lookup_livingArea_normalize, h] <;> rfl

/-- C6 witness: a concrete raw map whose livingArea is the text "1,234"
normalizes that field to the integer 1234, the "abc" and None cases give null,
and the key set is complete. -/
theorem normalize_int_family_coercion_witness :
    (normalize_property_record [("livingArea", Val.vstr "1,234".data)] [] []).lookup "livingArea" =
        some (NVal.nint 1234) ∧
    (normalize_property_record [("livingArea", Val.vstr "abc".data)] [] []).lookup "livingArea" =
        some NVal.nnull ∧
    (normalize_property_record [("livingArea", Val.vnone)] [] []).lookup "livingArea" =
        some NVal.nnull :=
  ⟨(normalize_int_family_coercion [("livingArea", Val.vstr "1,234".data)] [] []).1 (by rfl),
   (normalize_int_family_coercion [("livingArea", Val.vstr "abc".data)] [] []).2.1 (by rfl),
   (normalize_int_family_coercion [("livingArea", Val.vnone)] [] []).2.2.1 (by rfl)⟩

/-- C10: the integer coercion applied to a numeric (float) value returns
Python round's result, an integer at distance at most one half from the value
— a nearest integer; concretely 1500.7 rounds to 1501 and 2.7 rounds to 3,
not to the truncation 2 nor to the digit-stripped 27. -/
theorem parse_int_float_rounds_nearest :
    (∀ q : ℚ, parse_int (Val.vfloat q) = some (pyRound q) ∧
      |((pyRound q : ℤ) : ℚ) - q| ≤ 1/2) ∧
    parse_int (Val.vfloat (15007/10)) = some 1501 ∧
    parse_int (Val.vfloat (27/10)) = some 3 ∧
    parse_int (Val.vfloat (27/10)) ≠ some 2 ∧
    parse_int (Val.vfloat (27/10)) ≠ some 27 := by
  have h15 : pyRound (15007/10) = 1501 := by
    norm_num [pyRound, Rat.floor_def]
  have h27 : pyRound (27/10) = 3 := by
    norm_num [pyRound, Rat.floor_def]
  refine ⟨?_, by simp [parse_int, h15], by simp [parse_int, h27],
    by simp [parse_int, h27], by simp [parse_int, h27]⟩
  intro q
  refine ⟨rfl, ?_⟩
  have h0 : ((⌊q⌋ : ℤ) : ℚ) ≤ q := Int.floor_le q
  have h1 : q < ((⌊q⌋ : ℤ) : ℚ) + 1 := Int.lt_floor_add_one q
  simp only [pyRound]
  split
  · rename_i hr
    rw [abs_le]
    constructor <;> linarith
  · split
    · rename_i hr hr2
      rw [abs_le]
      constructor <;> push_cast <;> linarith
    · rename_i hr hr2
      have heq : q - ((⌊q⌋ : ℤ) : ℚ) = 1/2 := le_antisymm (not_lt.mp hr2) (not_lt.mp hr)
      split <;> (rw [abs_le]; constructor <;> push_cast <;> linarith)

/-- A transport-level failure of the httpx client: timeout or connection
error. -/
inductive NetFail where
  | timeout
  | connError
deriving DecidableEq

/-- The outcome of the outbound `self._client.get(url)` call: either a
transport failure raised by httpx, or a response (after redirects) carrying a
status code and a body. -/
inductive FetchOutcome where
  | netErr (e : NetFail)
  | resp (status : ℕ) (body : List Char)
deriving DecidableEq

/-- The exceptions that can escape the fetch step: the propagated httpx
network error, or the RuntimeError raised for a non-200 status (carrying the
status code). -/
inductive FetchFailure where
  | network (e : NetFail)
  | httpStatus (code : ℕ)
deriving DecidableEq

/-- The fetch/status-check step of fetch_property (zillow_parser.py:129-136):
the httpx call's transport failure propagates; a response with status other
than 200 raises with that status; a 200 response hands its markup to the
parsing stages. -/
def fetch_property_page (outcome : FetchOutcome) : Except FetchFailure (List Char) :=
  match outcome with
  | .netErr e => .error (.network e)
  | .resp status body =>
    if status ≠ 200 then .error (.httpStatus status) else .ok body

/-- C3 counterexample: status 201 is a success (2xx) status, yet the fetch
step raises the status-code failure instead of returning the markup, so the
claim's "exactly when the response status is not a success (2xx) status" fails
on the code. -/
theorem fetch_property_page_2xx_counterexample :
    (200 ≤ 201 ∧ 201 < 300) ∧
    fetch_property_page (.resp 201 "ok".data) = .error (.httpStatus 201) := by
  exact ⟨by decide, rfl⟩

/-- C3 amended: the fetch step raises a failure carrying the response status
code exactly when the status is not 200 (so 2xx statuses other than 200 also
raise), returns the raw page markup exactly on status 200, and turns a
timeout or connection failure into a network error. -/
theorem fetch_property_page_status_behavior (outcome : FetchOutcome) :
    (∀ e, outcome = .netErr e → fetch_property_page outcome = .error (.network e)) ∧
    (∀ status body, outcome = .resp status body →
      (status ≠ 200 → fetch_property_page outcome = .error (.httpStatus status)) ∧
      (status = 200 → fetch_property_page outcome = .ok body)) := by
  refine ⟨?_, ?_⟩
  · intro e h; rw [h]; rfl
  · intro status body h
    refine ⟨fun hne => ?_, fun he => ?_⟩
    · rw [h]; simp [fetch_property_page, hne]
    · rw [h, he]; rfl

/-- C3 amended witness: a 404 response raises the 404 failure, a 200 response
returns its markup, a timeout raises the network error. -/
theorem fetch_property_page_status_behavior_witness :
    fetch_property_page (.resp 404 "gone".data) = .error (.httpStatus 404) ∧
    fetch_property_page (.resp 200 "page".data) = .ok "page".data ∧
    fetch_property_page (.netErr .timeout) = .error (.network .timeout) :=
  ⟨((fetch_property_page_status_behavior (.resp 404 "gone".data)).2 404 "gone".data rfl).1
      (by decide),
   ((fetch_property_page_status_behavior (.resp 200 "page".data)).2 200 "page".data rfl).2 rfl,
   (fetch_property_page_status_behavior (.netErr .timeout)).1 .timeout rfl⟩

/-- process_records (src/URL/ZPID/src/runner.py:87-109): iterate the records in
order, run the per-item pipeline (`fetchF` stands for
`client.fetch_property`), append the result on success, log and continue on
any raised failure. -/
def process_records {ε α : Type} (fetchF : InputRecordL → Except ε α) :
    List InputRecordL → List α
  | [] => []
  | r :: rest =>
    match fetchF r with
    | .ok p => p :: process_records fetchF rest
    | .error _ => process_records fetchF rest

/-- A concrete two-record batch for the C7 scenario: the first input's fetch
fails with HTTP 404, the second succeeds. -/
def fetch404Scenario : InputRecordL → Except FetchFailure (List Char) :=
  fun r =>
    if r.value = "111".data then .error (.httpStatus 404)
    else .ok ( "record-".data ++ r.value)

/-- C7: the batch orchestrator is the sequential filter of per-item successes
— it returns exactly the successfully produced records in input order and a
per-item failure is swallowed rather than aborting the batch; in particular,
in a batch whose first item fails its fetch with status 404 and whose second
item succeeds, the output is exactly the second item's record. -/
theorem process_records_partial_batch :
    (∀ (ε α : Type) (fetchF : InputRecordL → Except ε α) (records : List InputRecordL),
      process_records fetchF records =
        records.filterMap (fun r => (fetchF r).toOption)) ∧
    process_records fetch404Scenario
        [⟨"111".data, "zpid", "111".data⟩, ⟨"222".data, "zpid", "222".data⟩] =
      ["record-222".data] := by
  constructor
  · intro ε α fetchF records
    induction records with
    | nil => rfl
    | cons r rest ih =>
      cases hfr : fetchF r <;>
        simp [process_records, List.filterMap_cons, hfr, Except.toOption, ih]
  · rfl

/-- Decoded generic structured objects (the result of `json.loads`): a tree of
maps with string keys (insertion-ordered, as Python dicts are), arrays,
and scalars.  Numbers are modelled as exact rationals. -/
inductive Json where
  | null
  | bool (b : Bool)
  | num (q : ℚ)
  | str (s : String)
  | arr (items : List Json)
  | obj (fields : List (String × Json))

/-- Membership of a key among a map node's keys. -/
def hasKeyJ (fields : List (String × Json)) (k : String) : Bool :=
  fields.any (fun p => p.1 == k)

/-- The payload test of walk (zillow_parser.py:186-190): a node qualifies iff
it is a map whose keys include both "zpid" and "zestimate". -/
def qualifies : Json → Bool
  | .obj fields => hasKeyJ fields "zpid" && hasKeyJ fields "zestimate"
  | _ => false

mutual
/-- walk (zillow_parser.py:185-200): check a map node itself first, then
recurse into its values in insertion order; recurse into list items in order;
scalars yield nothing; the first qualifying map found is returned. -/
def walk : Json → Option Json
  | .obj fields =>
    if qualifies (.obj fields) then some (.obj fields)
    else walkFields fields
  | .arr items => walkItems items
  | _ => none
/-- The `for value in obj.values()` loop of walk. -/
def walkFields : List (String × Json) → Option Json
  | [] => none
  | (_, v) :: rest =>
    match walk v with
    | some found => some found
    | none => walkFields rest
/-- The `for item in obj` loop of walk. -/
def walkItems : List Json → Option Json
  | [] => none
  | item :: rest =>
    match walk item with
    | some found => some found
    | none => walkItems rest
end

mutual
/-- Pre-order listing of the nodes of a tree: a node before its children,
children in stable document order. -/
def preorder : Json → List Json
  | .obj fields => .obj fields :: preorderFields fields
  | .arr items => .arr items :: preorderItems items
  | j => [j]
/-- Pre-order listing of the subtrees under a map's fields. -/
def preorderFields : List (String × Json) → List Json
  | [] => []
  | (_, v) :: rest => preorder v ++ preorderFields rest
/-- Pre-order listing of the subtrees under a list's items. -/
def preorderItems : List Json → List Json
  | [] => []
  | item :: rest => preorder item ++ preorderItems rest
end

mutual
/-- Shared characterization: walk returns the first node of the pre-order
traversal that passes the payload test. -/
theorem walk_eq_find : ∀ j : Json, walk j = (preorder j).find? qualifies
  | .null => rfl
  | .bool _ => rfl
  | .num _ => rfl
  | .str _ => rfl
  | .arr items => by
    simp only [walk, preorder]
    rw [List.find?_cons_of_neg _ (by simp [qualifies])]
    exact walkItems_eq_find items
  | .obj fields => by
    by_cases hq : qualifies (.obj fields)
    · simp only [walk, preorder, hq, if_true]
      rw [List.find?_cons_of_pos _ hq]
    · simp only [walk, preorder, hq, if_false]
      rw [List.find?_cons_of_neg _ hq]
      exact walkFields_eq_find fields
/-- Shared characterization, fields loop. -/
theorem walkFields_eq_find : ∀ fields : List (String × Json),
    walkFields fields = (preorderFields fields).find? qualifies
  | [] => rfl
  | (_, v) :: rest => by
    simp only [walkFields, preorderFields, List.find?_append]
    rw [← walk_eq_find v, ← walkFields_eq_find rest]
    cases h : walk v <;> simp [h, Option.or]
/-- Shared characterization, items loop. -/
theorem walkItems_eq_find : ∀ items : List Json,
    walkItems items = (preorderItems items).find? qualifies
  | [] => rfl
  | item :: rest => by
    simp only [walkItems, preorderItems, List.find?_append]
    rw [← walk_eq_find item, ← walkItems_eq_find rest]
    cases h : walk item <;> simp [h, Option.or]
end

/-- The qualifying map of the C1 scenario: it carries both required keys. -/
def qualMap : Json :=
  .obj [("zpid", .num 123), ("zestimate", .num 450000), ("bedrooms", .num 3)]

/-- The C1 scenario tree: the only qualifying map sits at depth 3, inside a
list, behind a scalar sibling and with a non-qualifying map sibling after
it. -/
def sampleTree : Json :=
  .obj [("props", .obj [("results", .arr [.str "pad", qualMap, .obj [("zpid", .num 9)]])])]

/-- C1: the payload locator is exactly the first match of a pre-order
depth-first search (the node itself is checked before its children, children
visited in stable document order), short-circuiting at the first map whose
keys include both "zpid" and "zestimate"; on the scenario tree, whose single
qualifying map sits at depth 3 inside a list, it returns exactly that map and
no ancestor or sibling. -/
theorem walk_first_preorder_qualifier :
    (∀ j : Json, walk j = (preorder j).find? qualifies) ∧
    (preorder sampleTree).filter qualifies = [qualMap] ∧
    walk sampleTree = some qualMap :=
  ⟨walk_eq_find, rfl, rfl⟩

/-- Python truthiness of a decoded JSON value (None, False, 0, empty string,
empty list and empty dict are falsy). -/
def truthy : Json → Bool
  | .null => false
  | .bool b => b
  | .num q => if q = 0 then false else true
  | .str s => if s = "" then false else true
  | .arr items => !items.isEmpty
  | .obj fields => !fields.isEmpty

/-- Python `a or b` on decoded JSON values. -/
def pyOr (a b : Json) : Json :=
  if truthy a then a else b

/-- Python `payload.get(k)`: JSON null and an absent key both come back as
None. -/
def jget (fields : List (String × Json)) (k : String) : Json :=
  match fields.find? (fun p => p.1 == k) with
  | some p => p.2
  | none => .null

/-- The address selection chain of _parse_from_json_blob
(zillow_parser.py:205-210): `payload.get("address") or
payload.get("streetAddress") or payload.get("formattedAddress") or
record.value`. -/
def addressSel (payload : List (String × Json)) (recordValue : String) : Json :=
  pyOr (jget payload "address")
    (pyOr (jget payload "streetAddress")
      (pyOr (jget payload "formattedAddress") (.str recordValue)))

/-- The zestimate selection chain (zillow_parser.py:213):
`payload.get("zestimate") or payload.get("price")`. -/
def zestimateRawSel (payload : List (String × Json)) : Json :=
  pyOr (jget payload "zestimate") (jget payload "price")

/-- Truncation toward zero, Python `int` applied to a float. -/
def ratTrunc (q : ℚ) : ℤ :=
  q.num / (q.den : ℤ)

/-- Decimal digits with single underscores allowed between digits, as accepted
by Python's string-to-int conversion. -/
def digitsUnder (acc : ℕ) : List Char → Option ℕ
  | [] => some acc
  | c :: rest =>
    if c.isDigit then digitsUnder (acc * 10 + (c.toNat - 48)) rest
    else if c = '_' then
      match rest with
      | d :: rest2 =>
        if d.isDigit then digitsUnder (acc * 10 + (d.toNat - 48)) rest2 else none
      | [] => none
    else none

/-- Python `int(s)` on an arbitrary string: optional surrounding whitespace,
optional sign, then digits. -/
def intOfPyLiteral (s : List Char) : Option ℤ :=
  match pyStrip s with
  | '-' :: c :: rest =>
    if c.isDigit then (digitsUnder (c.toNat - 48) rest).map (fun n => -((n : ℤ))) else none
  | '+' :: c :: rest =>
    if c.isDigit then (digitsUnder (c.toNat - 48) rest).map (fun n => ((n : ℤ))) else none
  | c :: rest =>
    if c.isDigit then (digitsUnder (c.toNat - 48) rest).map (fun n => ((n : ℤ))) else none
  | [] => none

/-- Python `int(x)` on a decoded JSON value, TypeError/ValueError giving
None. -/
def pyIntOfJson : Json → Option ℤ
  | .null => none
  | .bool b => some (if b then 1 else 0)
  | .num q => some (ratTrunc q)
  | .str s => intOfPyLiteral s.data
  | .arr _ => none
  | .obj _ => none

/-- The zestimate conversion (zillow_parser.py:215-218): a None selection
stays None, any other value goes through `int`, with failures caught to
None. -/
def zestimateSel (payload : List (String × Json)) : Option ℤ :=
  match zestimateRawSel payload with
  | .null => none
  | v => pyIntOfJson v

/-- The spec-side selection rule: the stored value of the first alternate key
whose value is truthy. -/
def firstTruthyAlt (payload : List (String × Json)) (keys : List String) : Option Json :=
  (keys.map (jget payload)).find? truthy

/-- C4 counterexample payload: the identifier key present, and the
valuation-estimate key present with the value zero. -/
def zeroZestimatePayload : List (String × Json) :=
  [("zpid", .num 123), ("zestimate", .num 0)]

/-- C4 counterexample: in a payload whose zestimate is present with value
zero, extraction yields None rather than zero — a present zero is not kept,
contrary to the claim that the first present non-null alternate wins and that
zero is never conflated with unknown. -/
theorem zestimate_zero_conflated_counterexample :
    jget zeroZestimatePayload "zestimate" = .num 0 ∧
    zestimateSel zeroZestimatePayload = none :=
  ⟨rfl, rfl⟩

/-- C4 amended: each extracted field takes the value of the first alternate
key whose value is truthy (non-null AND non-zero/non-empty) — for address:
"address", then "streetAddress", then "formattedAddress", then the input value
— and when no alternate is truthy the chain's final operand is used as-is; in
particular a zestimate present with value zero is skipped like an absent one:
it falls through to "price", and when no price is present the extracted
zestimate is None, so zero IS conflated with unknown by these chains. -/
theorem field_chain_first_truthy (payload : List (String × Json)) (recordValue : String) :
    (addressSel payload recordValue =
      (firstTruthyAlt payload ["address", "streetAddress", "formattedAddress"]).getD
        (.str recordValue)) ∧
    (zestimateRawSel payload =
      (firstTruthyAlt payload ["zestimate", "price"]).getD (jget payload "price")) ∧
    (jget payload "zestimate" = .num 0 → jget payload "price" = .null →
      zestimateSel payload = none) := by
  refine ⟨?_, ?_, ?_⟩
  · by_cases h1 : truthy (jget payload "address") <;>
      by_cases h2 : truthy (jget payload "streetAddress") <;>
        by_cases h3 : truthy (jget payload "formattedAddress") <;>
          simp [addressSel, firstTruthyAlt, pyOr, h1, h2, h3, List.find?]
  · by_cases h1 : truthy (jget payload "zestimate") <;>
      by_cases h2 : truthy (jget payload "price") <;>
        simp [zestimateRawSel, firstTruthyAlt, pyOr, h1, h2, List.find?]
  · intro hz hp
    simp [zestimateSel, zestimateRawSel, pyOr, truthy, hz, hp]

/-- C4 amended witness: with only streetAddress truthy the chain picks it; a
zero zestimate with no price extracts as None. -/
theorem field_chain_first_truthy_witness :
    addressSel [("streetAddress", Json.str "12 Main St")] "fallback" =
      Json.str "12 Main St" ∧
    zestimateSel [("zpid", Json.num 1), ("zestimate", Json.num 0)] = none :=
  ⟨((field_chain_first_truthy [("streetAddress", Json.str "12 Main St")] "fallback").1).trans
      (by rfl),
   (field_chain_first_truthy [("zpid", Json.num 1), ("zestimate", Json.num 0)] "x").2.2
      rfl rfl⟩

/-- The opening brace character. -/
def lbrace : Char := Char.ofNat 123

/-- The closing brace character. -/
def rbrace : Char := Char.ofNat 125

/-- The double quote character. -/
def dquote : Char := Char.ofNat 34

/-- The backslash character. -/
def bslash : Char := Char.ofNat 92

/-- JSON inter-token whitespace. -/
def isJsonWs (c : Char) : Bool :=
  c = ' ' || c = '\t' || c = '\n' || c = '\r'

/-- Skip JSON inter-token whitespace. -/
def skipWs (s : List Char) : List Char :=
  s.dropWhile isJsonWs

/-- One escape character of a JSON string literal (the \uXXXX form is not
needed by any input considered here and is rejected). -/
def escChar (c : Char) : Option Char :=
  if c = dquote then some dquote
  else if c = bslash then some bslash
  else if c = '/' then some '/'
  else if c = 'n' then some '\n'
  else if c = 't' then some '\t'
  else if c = 'r' then some '\r'
  else if c = 'b' then some (Char.ofNat 8)
  else if c = 'f' then some (Char.ofNat 12)
  else none

/-- Parse the remainder of a JSON string literal, after its opening quote:
the content and the input following the closing quote. -/
def parseStrBody : List Char → Option (List Char × List Char)
  | [] => none
  | c :: rest =>
    if c = dquote then some ([], rest)
    else if c = bslash then
      match rest with
      | [] => none
      | e :: rest2 =>
        match escChar e with
        | none => none
        | some ec => (parseStrBody rest2).map (fun p => (ec :: p.1, p.2))
    else if c.toNat < 32 then none
    else (parseStrBody rest).map (fun p => (c :: p.1, p.2))

/-- JSON integer-part digits: a single zero, or a nonzero digit followed by
more digits. -/
def jsonIntDigits (s : List Char) : Option (List Char × List Char) :=
  match s with
  | c :: rest =>
    if c = '0' then some ([c], rest)
    else if c.isDigit then
      let more := rest.takeWhile Char.isDigit
      some (c :: more, rest.drop more.length)
    else none
  | [] => none

/-- Parse a JSON number at the head of the input: optional minus, integer
part, optional fraction, optional exponent; its exact rational value and the
rest of the input. -/
def parseNum (s : List Char) : Option (ℚ × List Char) :=
  let negs : Bool × List Char :=
    match s with
    | c :: rest => if c = '-' then (true, rest) else (false, s)
    | [] => (false, s)
  match jsonIntDigits negs.2 with
  | none => none
  | some (ip, s2) =>
    let frs : List Char × List Char :=
      match s2 with
      | c :: rest =>
        if c = '.' then
          let fd := rest.takeWhile Char.isDigit
          if fd.isEmpty then ([], s2) else (fd, rest.drop fd.length)
        else ([], s2)
      | [] => ([], s2)
    let exps : Option (Bool × ℕ) × List Char :=
      match frs.2 with
      | c :: rest =>
        if c = 'e' ∨ c = 'E' then
          match rest with
          | d :: rest2 =>
            if d = '-' ∨ d = '+' then
              let ed := rest2.takeWhile Char.isDigit
              if ed.isEmpty then (none, frs.2)
              else (some (d = '-', natOfDigits ed), rest2.drop ed.length)
            else
              let ed := rest.takeWhile Char.isDigit
              if ed.isEmpty then (none, frs.2)
              else (some (false, natOfDigits ed), rest.drop ed.length)
          | [] => (none, frs.2)
        else (none, frs.2)
      | [] => (none, frs.2)
    let mant : ℕ := natOfDigits (ip ++ frs.1)
    let epow : Bool × ℕ :=
      match exps.1 with
      | some p => p
      | none => (false, 0)
    let numn : ℕ := if epow.1 then mant else mant * 10 ^ epow.2
    let denn : ℕ := if epow.1 then 10 ^ (frs.1.length + epow.2) else 10 ^ frs.1.length
    some (mkRat (if negs.1 then -((numn : ℤ)) else ((numn : ℤ))) denn, exps.2)

/-- Insert a key/value into an insertion-ordered map as a Python dict does: a
duplicate key keeps its original position but takes the new value. -/
def insertKey (fields : List (String × Json)) (k : String) (v : Json) :
    List (String × Json) :=
  if fields.any (fun p => p.1 == k) then
    fields.map (fun p => if p.1 == k then (p.1, v) else p)
  else fields ++ [(k, v)]

mutual
/-- Fuel-driven parser for one JSON value (modelling the stdlib `json.loads`
grammar; the fuel handed in strictly exceeds any possible nesting). -/
def parseVal : ℕ → List Char → Option (Json × List Char)
  | 0, _ => none
  | fuel + 1, s =>
    match skipWs s with
    | [] => none
    | c :: rest =>
      if c = lbrace then
        match skipWs rest with
        | d :: rest2 =>
          if d = rbrace then some (.obj [], rest2) else parseMembers fuel (d :: rest2) []
        | [] => none
      else if c = '[' then
        match skipWs rest with
        | d :: rest2 =>
          if d = ']' then some (.arr [], rest2) else parseItems fuel (d :: rest2) []
        | [] => none
      else if c = dquote then
        (parseStrBody rest).map (fun p => (Json.str (String.mk p.1), p.2))
      else if c = 't' then
        if List.isPrefixOf "rue".data rest then some (.bool true, rest.drop 3) else none
      else if c = 'f' then
        if List.isPrefixOf "alse".data rest then some (.bool false, rest.drop 4) else none
      else if c = 'n' then
        if List.isPrefixOf "ull".data rest then some (.null, rest.drop 3) else none
      else
        (parseNum (c :: rest)).map (fun p => (Json.num p.1, p.2))
/-- Members of an object after its opening brace (at least one member). -/
def parseMembers : ℕ → List Char → List (String × Json) → Option (Json × List Char)
  | 0, _, _ => none
  | fuel + 1, s, acc =>
    match skipWs s with
    | c :: rest =>
      if c = dquote then
        match parseStrBody rest with
        | none => none
        | some (key, rest2) =>
          match skipWs rest2 with
          | ':' :: rest3 =>
            match parseVal fuel rest3 with
            | none => none
            | some (v, rest4) =>
              match skipWs rest4 with
              | ',' :: rest5 => parseMembers fuel rest5 (insertKey acc (String.mk key) v)
              | d :: rest5 =>
                if d = rbrace then some (.obj (insertKey acc (String.mk key) v), rest5)
                else none
              | [] => none
          | _ => none
      else none
    | [] => none
/-- Items of an array after its opening bracket (at least one item). -/
def parseItems : ℕ → List Char → List Json → Option (Json × List Char)
  | 0, _, _ => none
  | fuel + 1, s, acc =>
    match parseVal fuel s with
    | none => none
    | some (v, rest) =>
      match skipWs rest with
      | ',' :: rest2 => parseItems fuel rest2 (acc ++ [v])
      | d :: rest2 => if d = ']' then some (.arr (acc ++ [v]), rest2) else none
      | [] => none
end

/-- `json.loads`: parse one value and require only whitespace to remain. -/
def jsonDecode (s : List Char) : Option Json :=
  match parseVal (s.length + 1) s with
  | some p => if skipWs p.2 = [] then some p.1 else none
  | none => none

/-- Python `text.find(c)`: index of the first occurrence, if any. -/
def firstIdx (c : Char) : List Char → Option ℕ
  | [] => none
  | x :: xs => if x = c then some 0 else (firstIdx c xs).map (fun i => i + 1)

/-- Python `text.rfind(c)`: index of the last occurrence, if any. -/
def lastIdx (c : Char) (s : List Char) : Option ℕ :=
  (firstIdx c s.reverse).map (fun i => s.length - 1 - i)

/-- The candidate substring of _extract_relevant_json
(zillow_parser.py:160-164): from the first opening brace to the last closing
brace, provided the latter comes strictly later. -/
def braceCandidate (text : List Char) : Option (List Char) :=
  match firstIdx lbrace text, lastIdx rbrace text with
  | some s, some e => if s < e then some ((text.drop s).take (e + 1 - s)) else none
  | _, _ => none

/-- The marker pre-filter (zillow_parser.py:157): the script text must contain
both "zestimate" and "zpid". -/
def hasMarkers (text : List Char) : Bool :=
  containsSub text "zestimate".data && containsSub text "zpid".data

/-- _extract_relevant_json (zillow_parser.py:147-169), over the document-order
list of script texts: the first marker-bearing script whose brace candidate
decodes yields the decoded object; every failure falls through to the next
script; otherwise None. -/
def extract_relevant_json : List (List Char) → Option Json
  | [] => none
  | text :: rest =>
    if hasMarkers text then
      match braceCandidate text with
      | some candidate =>
        match jsonDecode candidate with
        | some data => some data
        | none => extract_relevant_json rest
      | none => extract_relevant_json rest
    else extract_relevant_json rest

/-- Spec model helper: scan for the closing brace matching the opening brace
the scan starts at, counting textual nesting depth. -/
def balancedFrom : List Char → ℕ → List Char → Option (List Char)
  | [], _, _ => none
  | c :: rest, depth, acc =>
    if c = lbrace then balancedFrom rest (depth + 1) (c :: acc)
    else if c = rbrace then
      match depth with
      | 0 => none
      | 1 => some (c :: acc).reverse
      | d + 2 => balancedFrom rest (d + 1) (c :: acc)
    else balancedFrom rest depth (c :: acc)

/-- Spec model of the claim's words "the first top-level brace-delimited
substring": the balanced brace region starting at the first opening brace. -/
def firstBalancedBrace (text : List Char) : Option (List Char) :=
  match firstIdx lbrace text with
  | some i => balancedFrom (text.drop i) 0 []
  | none => none

/-- Spec model of the claimed extraction: identical to the code's loop except
that each candidate is the first top-level brace-delimited substring of its
script. -/
def extract_relevant_json_specModel : List (List Char) → Option Json
  | [] => none
  | text :: rest =>
    if hasMarkers text then
      match firstBalancedBrace text with
      | some candidate =>
        match jsonDecode candidate with
        | some data => some data
        | none => extract_relevant_json_specModel rest
      | none => extract_relevant_json_specModel rest
    else extract_relevant_json_specModel rest

/-- C2 counterexample input: a single script block bearing both markers and
holding two separate top-level brace-delimited objects. -/
def twoObjectScript : List Char :=
  "zpid zestimate x = \x7b\"a\": 1\x7d; y = \x7b\"b\": 2\x7d;".data

/-- C2 counterexample: on the two-object script, the first top-level
brace-delimited substring decodes successfully — the claim therefore promises
a successful extraction — yet the code's extraction returns None, because it
attempts the span from the first opening brace to the LAST closing brace,
which is not valid JSON. -/
theorem extract_relevant_json_two_objects_counterexample :
    extract_relevant_json_specModel [twoObjectScript] = some (.obj [("a", .num 1)]) ∧
    extract_relevant_json [twoObjectScript] = none :=
  ⟨rfl, rfl⟩

/-- C2 amended: extraction considers only script blocks containing both the
"zestimate" and "zpid" marker tokens; for each such block in document order it
takes the substring from the first opening brace to the last closing brace
(skipping the block when the braces are missing or mis-ordered), attempts to
decode it as a generic object, and accepts the first successful decode;
equivalently, it returns the head of the per-script success list — and hence
None when no candidate block decodes successfully or no block contains both
markers. -/
theorem extract_relevant_json_first_success (scripts : List (List Char)) :
    extract_relevant_json scripts =
      (scripts.filterMap
        (fun text =>
          if hasMarkers text then (braceCandidate text).bind jsonDecode else none)).head? := by
  induction scripts with
  | nil => rfl
  | cons text rest ih =>
    by_cases hm : hasMarkers text
    · cases hbc : braceCandidate text with
      | none => simp [extract_relevant_json, hm, hbc, List.filterMap_cons, ih]
      | some cand =>
        cases hd : jsonDecode cand with
        | none => simp [extract_relevant_json, hm, hbc, hd, List.filterMap_cons, ih]
        | some d => simp [extract_relevant_json, hm, hbc, hd, List.filterMap_cons]
    · simp [extract_relevant_json, hm, List.filterMap_cons, ih]

/-- Word characters for the regex word boundary (letters, digits, underscore;
ASCII suffices for the texts involved). -/
def isWordChar (c : Char) : Bool :=
  c.isAlphanum || c = '_'

/-- A number as produced by the heuristic extractor: a Python int or a Python
float. -/
inductive NumV where
  | i (n : ℤ)
  | f (q : ℚ)
deriving DecidableEq

/-- One attempt of the numeric-feature pattern — digits, an optional dot-led
fraction, optional whitespace, the case-insensitive suffix, then a word
boundary — at a single position of the text (zillow_parser.py:351-364): a
decimal match parses as a float, an integral one as an int. -/
def matchFeatureAt (suf : List Char) (s : List Char) : Option NumV :=
  let ds := s.takeWhile Char.isDigit
  if ds.isEmpty then none
  else
    let rest := s.drop ds.length
    let frp : List Char × List Char :=
      match rest with
      | '.' :: r =>
        let fs := r.takeWhile Char.isDigit
        if fs.isEmpty then ([], rest) else (fs, r.drop fs.length)
      | _ => ([], rest)
    let rest3 := frp.2.dropWhile isReSpace
    let boundaryOk : Bool :=
      match rest3.drop suf.length with
      | [] => true
      | b :: _ => !isWordChar b
    if lowerL (rest3.take suf.length) = lowerL suf ∧ boundaryOk = true then
      some (if frp.1.isEmpty then NumV.i ((natOfDigits ds : ℤ))
            else NumV.f (mkRat ((natOfDigits (ds ++ frp.1) : ℤ)) (10 ^ frp.1.length)))
    else none

/-- _extract_numeric_feature's `re.search` (zillow_parser.py:346-353): try each
start position left to right, leftmost match wins. -/
def searchFeature (suf : List Char) : List Char → Option NumV
  | [] => none
  | c :: rest =>
    match matchFeatureAt suf (c :: rest) with
    | some v => some v
    | none => searchFeature suf rest

/-- A quote character of the zpid pattern's quote class. -/
def isQuoteChar (c : Char) : Bool :=
  c = dquote || c = Char.ofNat 39

/-- One attempt of the identifier pattern — "zpid", an optional quote,
whitespace, a colon or equals sign, whitespace, an optional quote, then the
captured digit run — at a single position (zillow_parser.py:279,
case-insensitive). -/
def matchZpidAt (s : List Char) : Option (List Char) :=
  if lowerL (s.take 4) = "zpid".data then
    let r1 := s.drop 4
    let r2 :=
      match r1 with
      | c :: rest => if isQuoteChar c then rest else r1
      | [] => r1
    let r3 := r2.dropWhile isReSpace
    match r3 with
    | c :: rest =>
      if c = ':' ∨ c = '=' then
        let r4 := rest.dropWhile isReSpace
        let r5 :=
          match r4 with
          | d :: rest2 => if isQuoteChar d then rest2 else r4
          | [] => r4
        let ds := r5.takeWhile Char.isDigit
        if ds.isEmpty then none else some ds
      else none
    | [] => none
  else none

/-- `re.search` for the identifier pattern: leftmost match wins. -/
def searchZpid : List Char → Option (List Char)
  | [] => none
  | c :: rest =>
    match matchZpidAt (c :: rest) with
    | some v => some v
    | none => searchZpid rest

/-- One attempt of the labeled-value pattern — the label case-insensitively,
any run of non-digits, then the digits-and-commas run starting at the first
digit, whose comma-stripped value is captured — at a single position
(zillow_parser.py:332-344). -/
def matchLabelIntAt (label : List Char) (s : List Char) : Option ℤ :=
  if lowerL (s.take label.length) = lowerL label then
    match (s.drop label.length).dropWhile (fun c => !c.isDigit) with
    | [] => none
    | d :: rest =>
      let run := (d :: rest).takeWhile (fun c => c.isDigit || c = ',')
      some ((natOfDigits (run.filter Char.isDigit) : ℤ))
  else none

/-- `re.search` for the labeled-value pattern: leftmost match wins. -/
def searchLabelInt (label : List Char) : List Char → Option ℤ
  | [] => none
  | c :: rest =>
    match matchLabelIntAt label (c :: rest) with
    | some v => some v
    | none => searchLabelInt label rest

/-- One attempt of the year pattern — four digits in 1950-1999 or 2000-2049
with word boundaries on both sides — at a single position, given the previous
character for the left boundary (zillow_parser.py:368). -/
def matchYearAt (prev : Option Char) (s : List Char) : Option ℤ :=
  let lb : Bool :=
    match prev with
    | none => true
    | some p => !isWordChar p
  match s with
  | a :: b :: c :: d :: rest =>
    let rb : Bool :=
      match rest with
      | [] => true
      | e :: _ => !isWordChar e
    if lb && rb && a.isDigit && b.isDigit && c.isDigit && d.isDigit then
      let n := natOfDigits [a, b, c, d]
      if (1950 ≤ n ∧ n ≤ 1999) ∨ (2000 ≤ n ∧ n ≤ 2049) then some ((n : ℤ)) else none
    else none
  | _ => none

/-- `re.search` for the year pattern, tracking the previous character. -/
def searchYearFrom (prev : Option Char) : List Char → Option ℤ
  | [] => none
  | c :: rest =>
    match matchYearAt prev (c :: rest) with
    | some v => some v
    | none => searchYearFrom (some c) rest

/-- _extract_year (zillow_parser.py:366-374). -/
def searchYear (text : List Char) : Option ℤ :=
  searchYearFrom none text

/-- The fixed property-type vocabulary, in source order
(zillow_parser.py:378-384). -/
def propertyTypeVocab : List (List Char) :=
  ["Single Family".data, "Condo".data, "Townhouse".data, "Multi Family".data,
   "Apartment".data]

/-- _extract_property_type (zillow_parser.py:376-387): first vocabulary entry
contained case-insensitively in the text. -/
def extract_property_type (text : List Char) : Option (List Char) :=
  propertyTypeVocab.find? (fun cand => containsSub (lowerL text) (lowerL cand))

/-- One attempt of the postal-code pattern — five digits, an optional
dash-and-four-digits, optional whitespace, an optional USA/United States
token — at a single position: its matched length (zillow_parser.py:320-323). -/
def zipMatchLen (s : List Char) : Option ℕ :=
  if (s.take 5).length = 5 ∧ (s.take 5).all Char.isDigit then
    let len1 : ℕ :=
      match s.drop 5 with
      | c :: t =>
        if c = '-' ∧ (t.take 4).length = 4 ∧ (t.take 4).all Char.isDigit then 10 else 5
      | [] => 5
    let rest2 := s.drop len1
    let wlen := (rest2.takeWhile isReSpace).length
    let rest3 := rest2.drop wlen
    let slen : ℕ :=
      if List.isPrefixOf "USA".data rest3 then 3
      else if List.isPrefixOf "United States".data rest3 then 13
      else 0
    some (len1 + wlen + slen)
  else none

/-- `re.search` for the postal-code pattern: leftmost start index and matched
length. -/
def searchZipFrom (i : ℕ) : List Char → Option (ℕ × ℕ)
  | [] => none
  | c :: rest =>
    match zipMatchLen (c :: rest) with
    | some len => some (i, len)
    | none => searchZipFrom (i + 1) rest

/-- _extract_address_from_html (zillow_parser.py:305-329): the og:title meta
content when that tag exists with truthy content, else the h1 text when
truthy, else the 80-character window ending at the postal-code match,
stripped.  The two DOM lookups (BeautifulSoup) enter the model as optional
inputs carrying exactly the truthy case. -/
def extract_address_from_html (ogTitle h1Text : Option (List Char))
    (text : List Char) : Option (List Char) :=
  match ogTitle with
  | some content => some content
  | none =>
    match h1Text with
    | some t => some t
    | none =>
      match searchZipFrom 0 text with
      | some se =>
        let start := se.1 - 80
        some (pyStrip ((text.drop start).take (se.1 + se.2 - start)))
      | none => none

/-- PriceEvent (zillow_parser.py:14-25). -/
structure PriceEventL where
  date : List Char
  event : List Char
  price : Option ℤ
deriving DecidableEq

/-- PropertyData (zillow_parser.py:27-46).  The numeric fields that the
heuristic path fills keep the Python int/float distinction. -/
structure PropertyDataL where
  address : List Char
  zpid : List Char
  url : List Char
  zestimate : Option ℤ
  bedrooms : Option NumV
  bathrooms : Option NumV
  livingArea : Option NumV
  lotSize : Option ℤ
  yearBuilt : Option ℤ
  propertyType : Option (List Char)
  priceHistory : List PriceEventL
deriving DecidableEq

/-- _parse_from_html (zillow_parser.py:264-303): heuristic extraction over the
page's flattened text and the two DOM landmarks; the lot-size field is never
extracted on this path and the price history is always empty. -/
def parse_from_html (ogTitle h1Text : Option (List Char)) (text : List Char)
    (recordValue url : List Char) : PropertyDataL :=
  { address := (extract_address_from_html ogTitle h1Text text).getD recordValue
    zpid := (searchZpid text).getD []
    url := url
    zestimate := searchLabelInt "Zestimate".data text
    bedrooms := searchFeature "bd".data text
    bathrooms := searchFeature "ba".data text
    livingArea := searchFeature "sqft".data text
    lotSize := none
    yearBuilt := searchYear text
    propertyType := extract_property_type text
    priceHistory := [] }

/-- C9: the numeric-feature extraction returns the match at the leftmost
matching position — the first number preceding the unit suffix (up to
whitespace, with a word boundary after the suffix) — as a float exactly when
the matched number contains a decimal point and as an integer otherwise; on
the spec's example text it yields bedrooms 3 (integer), bathrooms 2.5 (float)
and living area 1800 (integer); and on the heuristic path the lot-size field
is always None and the price history always empty. -/
theorem feature_suffix_extraction :
    (∀ (suf text : List Char) (v : NumV), searchFeature suf text = some v →
      ∃ n, matchFeatureAt suf (text.drop n) = some v ∧
        ∀ m, m < n → matchFeatureAt suf (text.drop m) = none) ∧
    (searchFeature "bd".data "... 3 bd ... 2.5 ba ... 1800 sqft ...".data =
        some (NumV.i 3) ∧
      searchFeature "ba".data "... 3 bd ... 2.5 ba ... 1800 sqft ...".data =
        some (NumV.f (mkRat 5 2)) ∧
      searchFeature "sqft".data "... 3 bd ... 2.5 ba ... 1800 sqft ...".data =
        some (NumV.i 1800)) ∧
    (∀ ogTitle h1Text text recordValue url,
      (parse_from_html ogTitle h1Text text recordValue url).lotSize = none ∧
      (parse_from_html ogTitle h1Text text recordValue url).priceHistory = []) := by
  refine ⟨?_, ⟨rfl, rfl, rfl⟩, fun _ _ _ _ _ => ⟨rfl, rfl⟩⟩
  intro suf text v h
  induction text with
  | nil => exact absurd h (by simp [searchFeature])
  | cons c rest ih =>
    cases hm : matchFeatureAt suf (c :: rest) with
    | some w =>
      have hw : some w = some v := by
        rw [searchFeature, hm] at h
        exact h
      refine ⟨0, by simpa using hm.trans hw, ?_⟩
      intro m hlt
      exact absurd hlt (Nat.not_lt_zero m)
    | none =>
      have h2 : searchFeature suf rest = some v := by
        rw [searchFeature, hm] at h
        exact h
      obtain ⟨n, hn, hall⟩ := ih h2
      refine ⟨n + 1, by simpa [List.drop_succ_cons] using hn, ?_⟩
      intro m hlt
      cases m with
      | zero => simpa using hm
      | succ m2 =>
        simpa [List.drop_succ_cons] using hall m2 (Nat.lt_of_succ_lt_succ hlt)

/-- C9 witness: on the example text the "bd" search's result is realized at a
leftmost matching position. -/
theorem feature_suffix_extraction_witness :
    ∃ n, matchFeatureAt "bd".data ("... 3 bd ... 2.5 ba ... 1800 sqft ...".data.drop n) =
        some (NumV.i 3) ∧
      ∀ m, m < n →
        matchFeatureAt "bd".data ("... 3 bd ... 2.5 ba ... 1800 sqft ...".data.drop m) = none :=
  feature_suffix_extraction.1 "bd".data "... 3 bd ... 2.5 ba ... 1800 sqft ...".data
    (NumV.i 3) (by rfl)
